import Mathlib

/-!
Verification development for the WordPress image fixer (`main.py`).

The program scans an S3 bucket in batches (`get_images`), groups image keys
into families by base name, selects the largest size variant per family,
and synthesizes a canonical base image by 2x upscaling (`upscale_image`),
guarded by an eligibility gate and an existing-base sufficiency check.

The embedding below models the string manipulation exactly (Python
`rsplit`, `split`, `re.sub` of the extension alternation, `os.path.splitext`,
substring membership `in`), the S3 store as an association list from keys to
decoded image dimensions (or a corrupt marker), and the control flow of
`upscale_image` / `main` including exception propagation, local temp-file
lifetime, and the cursor file `last_key.txt`.
Python `int()` is modelled as parsing of nonempty all-digit strings (the
inputs it receives here never carry signs or whitespace: they come from the
segment after the last `-`).  The float aspect ratios are modelled over ℚ;
for pixel-sized integers the comparisons against 0.5 and 2 agree with IEEE
doubles.  Decoded images are assumed to have positive height wherever an
aspect ratio is taken (Python would raise ZeroDivisionError on height 0).
A `list_objects` page with zero matching keys carries no `Contents` entry,
so line 58's `response['Contents']` raises an uncaught `KeyError` there —
the model keeps that crash path explicit.
-/

namespace WPImageFixer

/-! ## Character-list string machinery -/

/-- Does `l` begin with `pat`? (Bool version of list prefixes.) -/
def matchAt : List Char → List Char → Bool
  | [], _ => true
  | _ :: _, [] => false
  | p :: ps, c :: cs => if p = c then matchAt ps cs else false

/-- Python substring membership `pat in l`. -/
def hasSub (pat : List Char) : List Char → Bool
  | [] => matchAt pat []
  | c :: cs => matchAt pat (c :: cs) || hasSub pat cs

/-- Does `l` end with `suf`? -/
def endsWithL (l suf : List Char) : Bool := matchAt suf.reverse l.reverse

/-- Python `s.rsplit(sep, 1)`: split at the LAST occurrence of `sep`;
`none` when `sep` does not occur. -/
def rsplit1 (sep : Char) : List Char → Option (List Char × List Char)
  | [] => none
  | c :: rest =>
    match rsplit1 sep rest with
    | some (a, b) => some (c :: a, b)
    | none => if c = sep then some ([], rest) else none

/-- Python `s.split(sep)` (all occurrences). -/
def splitOnChar (sep : Char) : List Char → List (List Char)
  | [] => [[]]
  | c :: rest =>
    match splitOnChar sep rest with
    | [] => [[]]
    | p :: ps => if c = sep then [] :: p :: ps else (c :: p) :: ps

/-- The part after the last `/` (Python `s.rsplit('/', 1)[-1]`). -/
def lastCompL (p : List Char) : List Char :=
  match rsplit1 '/' p with
  | some (_, b) => b
  | none => p

/-- Python `os.path.dirname` for S3-style relative keys: everything before
the last `/`, empty when there is no `/`.  (Keys beginning with `/` do not
occur in this system.) -/
def dirnameL (p : List Char) : List Char :=
  match rsplit1 '/' p with
  | some (a, _) => a
  | none => []

/-- Python `os.path.splitext(p)[1]`: the extension from the last dot of the
last path component, empty when the component has no dot or only leading
dots before it. -/
def splitextExtL (p : List Char) : List Char :=
  let comp := lastCompL p
  match rsplit1 '.' comp with
  | none => []
  | some (a, b) => if a.any (fun c => c ≠ '.') then '.' :: b else []

/-- Value of a decimal-digit string. -/
def digitsVal (l : List Char) : Nat :=
  l.foldl (fun n c => 10 * n + (c.toNat - 48)) 0

/-- Python `int()` on the strings that reach it here: nonempty all-digit
strings parse to their value, everything else raises `ValueError`.  This is
strictly narrower than `int()`, which also accepts e.g. underscore
separators (`int("1_0") = 10`), surrounding whitespace, and non-ASCII
decimal digits; no theorem below depends on such inputs — all quantified
parse inputs are nonempty ASCII digit strings, where the two agree. -/
def parseNat? (l : List Char) : Option Nat :=
  if !l.isEmpty && l.all Char.isDigit then some (digitsVal l) else none

/-- `re.sub(r'\.(jpg|jpeg|JPG|JPEG)$', '', s)`: strip one of the four exact
extension spellings from the end. -/
def stripSizeExtL (l : List Char) : List Char :=
  if endsWithL l ['.', 'j', 'p', 'g'] then l.take (l.length - 4)
  else if endsWithL l ['.', 'j', 'p', 'e', 'g'] then l.take (l.length - 5)
  else if endsWithL l ['.', 'J', 'P', 'G'] then l.take (l.length - 4)
  else if endsWithL l ['.', 'J', 'P', 'E', 'G'] then l.take (l.length - 5)
  else l

/-- `get_basename` (source line 35): `filename.rsplit('-', 1)[0]`. -/
def get_basename_l (filename : List Char) : List Char :=
  match rsplit1 '-' filename with
  | some (a, _) => a
  | none => filename

/-- `get_image_area` (source lines 92-101): take the part after the last
`-`, strip the extension, split on `x`, and multiply; any parse failure
yields 0. -/
def get_image_area_l (image : List Char) : Nat :=
  let lastPart :=
    match rsplit1 '-' image with
    | some (_, b) => b
    | none => image
  let size_info := stripSizeExtL lastPart
  match splitOnChar 'x' size_info with
  | [wS, hS] =>
    match parseNat? wS, parseNat? hS with
    | some w, some h => w * h
    | _, _ => 0
  | _ => 0

/-! String-level wrappers used by the pipeline. -/

def get_basename (s : String) : String := ⟨get_basename_l s.data⟩

def get_image_area (s : String) : Nat := get_image_area_l s.data

def splitext_ext (s : String) : String := ⟨splitextExtL s.data⟩

def lastComp (s : String) : String := ⟨lastCompL s.data⟩

def dirname (s : String) : String := ⟨dirnameL s.data⟩

/-- Python `str.lower()` (ASCII keys). -/
def strLower (s : String) : String := ⟨s.data.map Char.toLower⟩

/-- The filter of source line 184:
`any(ext in key.lower() for ext in ['.jpg', '.jpeg'])` — substring
membership, not an extension check. -/
def imageKeyFilter (k : String) : Bool :=
  hasSub ".jpg".data (strLower k).data || hasSub ".jpeg".data (strLower k).data

def imageFilter (keys : List String) : List String := keys.filter imageKeyFilter

/-! ## The object store and `object_exists` -/

/-- Result of `s3_client.head_object`: success, or a `ClientError` carrying
an error code (botocore surfaces HTTP head failures as `ClientError`s). -/
inductive HeadResult where
  | ok : HeadResult
  | clientError (code : String) : HeadResult
deriving DecidableEq

/-- `object_exists` (source lines 104-112): `False` only on a `ClientError`
with code `'404'`; any other `ClientError` falls through the `if` and hits
the trailing `return True`. -/
def object_exists (r : HeadResult) : Bool :=
  match r with
  | .ok => true
  | .clientError code => if code = "404" then false else true

/-- A stored object: a decodable image with pixel dimensions, or bytes that
make `PIL.Image.open` raise `UnidentifiedImageError`. -/
inductive ImgObj where
  | img (w h : Nat) : ImgObj
  | corrupt : ImgObj
deriving DecidableEq

/-- The bucket contents: association list from object key to object. -/
abbrev Store := List (String × ImgObj)

def storeLookup : Store → String → Option ImgObj
  | [], _ => none
  | (k', v) :: rest, k => if k' = k then some v else storeLookup rest k

/-- S3 `upload_file`: put (overwrite or create) under the key. -/
def storeInsert : Store → String → ImgObj → Store
  | [], k, v => [(k, v)]
  | (k', v') :: rest, k, v =>
    if k' = k then (k, v) :: rest else (k', v') :: storeInsert rest k v

/-- The head call a store performs for a key: `404` exactly when absent. -/
def headOf (store : Store) (k : String) : HeadResult :=
  match storeLookup store k with
  | some _ => .ok
  | none => .clientError "404"

/-- `Image.open` on a downloaded copy of object `k`: its dimensions, or
`none` when it raises `UnidentifiedImageError`.  (A missing object cannot
reach this point: existence is checked before each download.) -/
def decodeOf (store : Store) (k : String) : Option (Nat × Nat) :=
  match storeLookup store k with
  | some (.img w h) => some (w, h)
  | _ => none

/-! ## The decision predicates of `upscale_image` -/

/-- `width / height` as Python computes it (exact rationals here; for
pixel-sized integers the float comparisons against 0.5 and 2 agree). -/
def aspect_ratio (w h : Nat) : ℚ := (w : ℚ) / (h : ℚ)

/-- The eligibility gate of source line 131:
`max(width, height) >= 600 and aspect_ratio > 0.5 and aspect_ratio < 2`.
The ratio comparisons are rendered by integer cross-multiplication so the
model stays kernel-executable; `eligibility_gate_ratio` proves that for
`h > 0` (every decoded image; Python raises `ZeroDivisionError` otherwise)
this agrees with the rational `w/h` formulation of the source. -/
def eligibility_gate (w h : Nat) : Bool :=
  decide (600 ≤ max w h) && decide (h < 2 * w) && decide (w < 2 * h)

/-- The existing-base sufficiency test of source line 148:
`((ex_width * ex_height) > (width * height)) or (((ex_width >= 2560) or
(ex_height >= 2560)) and ((ex_aspect_ratio > 0.5) or (ex_aspect_ratio <= 2)))`.
As above the two ratio comparisons are cross-multiplied
(`existing_guard_ratio` proves the agreement for `eh > 0`). -/
def existing_guard (ew eh w h : Nat) : Bool :=
  decide (w * h < ew * eh)
    || ((decide (2560 ≤ ew) || decide (2560 ≤ eh))
        && (decide (eh < 2 * ew) || decide (ew ≤ 2 * eh)))

/-- Modelled from the spec: the spec's sufficiency condition for an existing
base image — "the existing base image's area exceeds the candidate's
pre-upscale area, OR the existing image's longer edge is ≥ 2560 px while its
aspect ratio lies in the (0.5, 2.0] acceptability band".  Stated for
comparison with `existing_guard`, the condition the code actually tests. -/
def sufficientPerSpec (ew eh w h : Nat) : Prop :=
  w * h < ew * eh
    ∨ (2560 ≤ max ew eh ∧ (1 : ℚ)/2 < aspect_ratio ew eh ∧ aspect_ratio ew eh ≤ 2)

/-! ## `upscale_image` (source lines 115-171)

The model tracks, besides the store, the local transient files that remain
on disk after the call, the keys uploaded, and whether an exception escaped
the function.  Fault injection covers a failing `upload_file` and failing
`os.remove`s, so that the cleanup behaviour on every exit path is visible. -/

inductive PyExc where
  | unidentifiedImage : PyExc
  | clientError : PyExc
  | osError : PyExc
deriving DecidableEq

structure Faults where
  /-- `s3_client.upload_file` raises. -/
  uploadFails : Bool
  /-- which local paths `os.remove` fails on. -/
  removeFail : String → Bool

/-- No injected faults. -/
def faults0 : Faults := ⟨false, fun _ => false⟩

/-- State at the end of the `try` body (before `except`/`finally`). -/
structure Inner where
  store : Store
  localFiles : List String
  uploadedKeys : List String
  exc : Option PyExc
deriving DecidableEq

/-- The name `'./tmp/' + str(uuid.uuid4()) + '.jpg'`; uuid freshness is
modelled by side conditions keeping it distinct from the other paths. -/
def tempName : String := "./tmp/8a1f63c0.jpg"

/-- Source lines 152-160: `os.makedirs(dirname, exist_ok=True)` (which
raises `FileNotFoundError` when the dirname is empty, i.e. the key has no
`/`), save the upscaled image locally at `base_image_name`, upload it, then
`os.remove` it — the remove is skipped whenever the upload raises. -/
def upscale_publish (store : Store) (faults : Faults) (dst : String)
    (nw nh : Nat) (leftover : List String) : Inner :=
  if dirname dst = "" then ⟨store, leftover, [], some .osError⟩
  else if faults.uploadFails then ⟨store, leftover ++ [dst], [], some .clientError⟩
  else
    let store' := storeInsert store dst (.img nw nh)
    if faults.removeFail dst then ⟨store', leftover ++ [dst], [dst], some .osError⟩
    else ⟨store', leftover, [dst], none⟩

/-- The `try` body, source lines 125-162: decode, eligibility gate, the
existing-base inspection (download to a temp file, removed under its own
`try/except` — its failure is only logged), the sufficiency guard, then
publication. -/
def upscale_try (store : Store) (faults : Faults) (src dst : String)
    (factor : Nat) : Inner :=
  match decodeOf store src with
  | none => ⟨store, [], [], some .unidentifiedImage⟩
  | some (w, h) =>
    if eligibility_gate w h then
      if object_exists (headOf store dst) then
        match decodeOf store dst with
        | none => ⟨store, [tempName], [], some .unidentifiedImage⟩
        | some (ew, eh) =>
          let tempLeft : List String :=
            if faults.removeFail tempName then [tempName] else []
          if existing_guard ew eh w h then ⟨store, tempLeft, [], none⟩
          else upscale_publish store faults dst (w * factor) (h * factor) tempLeft
      else upscale_publish store faults dst (w * factor) (h * factor) []
    else ⟨store, [], [], none⟩

/-- Result of one `upscale_image` call. -/
structure UOut where
  store : Store
  localFiles : List String
  uploadedKeys : List String
  /-- an exception escaped the call (its own `except` only catches
  `UnidentifiedImageError`). -/
  raised : Bool
deriving DecidableEq

/-- `upscale_image` (source lines 115-171): existence check and download of
the source to `./tmp/<basename>`, the `try` body, the
`except UnidentifiedImageError` handler, and the `finally` that removes the
downloaded source — that `os.remove` is not guarded, so its failure raises. -/
def upscale_image (store : Store) (faults : Faults) (src_image base_image_name : String)
    (upscale_factor : Nat := 2) : UOut :=
  let file_name := "./tmp/" ++ lastComp src_image
  if object_exists (headOf store src_image) then
    let inner := upscale_try store faults src_image base_image_name upscale_factor
    let escaped :=
      match inner.exc with
      | some .unidentifiedImage => false
      | some _ => true
      | none => false
    if faults.removeFail file_name then
      ⟨inner.store, inner.localFiles ++ [file_name], inner.uploadedKeys, true⟩
    else ⟨inner.store, inner.localFiles, inner.uploadedKeys, escaped⟩
  else ⟨store, [], [], false⟩

/-! ## Batch processing (source lines 180-210) -/

/-- Python `max(variants_without_base, key=get_image_area)`: first element
of maximal area (Python `max` keeps the earlier element on ties). -/
def maxByArea : List String → Option String
  | [] => none
  | x :: xs =>
    some (xs.foldl (fun acc c => if get_image_area acc < get_image_area c then c else acc) x)

/-- Lines 191-208 for one family: re-filter the variants by basename,
select the largest, derive `base_image_name`, and—unless it is already
named among the variants or the candidate area is 0—call `upscale_image`.
Exceptions from `upscale_image` are caught by the per-family
`try/except Exception` (line 205-208), so only the store and uploads
survive.  Returns the store afterwards and the list of uploaded keys. -/
def process_family (store : Store) (faults : Faults) (base : String)
    (variants : List String) : Store × List String :=
  match maxByArea (variants.filter fun x => get_basename x == base) with
  | none => (store, [])
  | some largest =>
    let base_image_name := base ++ splitext_ext largest
    if base_image_name ∈ variants then (store, [])
    else if get_image_area largest = 0 then (store, [])
    else
      let o := upscale_image store faults largest base_image_name 2
      (o.store, o.uploadedKeys)

/-- `images_data` construction (lines 181-189): Python dict insertion order
— first-seen family order, variants appended in order of appearance. -/
def addToFamily : List (String × List String) → String → String →
    List (String × List String)
  | [], b, k => [(b, [k])]
  | (b', ks) :: rest, b, k =>
    if b' = b then (b', ks ++ [k]) :: rest else (b', ks) :: addToFamily rest b k

def groupByBasename (keys : List String) : List (String × List String) :=
  keys.foldl (fun acc k => addToFamily acc (get_basename k) k) []

/-- One pass of the `while images:` body over a batch of keys: extension
filtering, grouping, and per-family processing, threading the store. -/
def process_batch (store : Store) (faults : Faults) (keys : List String) :
    Store × List String :=
  (groupByBasename (imageFilter keys)).foldl
    (fun acc fam =>
      let r := process_family acc.1 faults fam.1 fam.2
      (r.1, acc.2 ++ r.2))
    (store, [])

/-! ## The inventory scan (`get_images`, source lines 40-89) -/

/-- One page of `s3.list_objects`.  The `Contents` entry is OMITTED from
the response when zero keys match (boto3 does not inject an empty list), so
it is modelled as an `Option`: `none` is a page without the key, on which
line 58's `response['Contents']` raises `KeyError`. -/
structure ListResponse where
  contents : Option (List String)
  isTruncated : Bool
deriving DecidableEq

/-- Strict lexicographic order on keys (S3 lists in byte order; this is
the standard lexicographic order on the characters). -/
def keyLt : List Char → List Char → Bool
  | [], [] => false
  | [], _ :: _ => true
  | _ :: _, [] => false
  | a :: as, b :: bs => if a = b then keyLt as bs else decide (a < b)

def keyLtS (a b : String) : Bool := keyLt a.data b.data

/-- The keys of the bucket listing lexicographically after a marker
(`Marker=` semantics: strictly after; no marker: from the beginning). -/
def keysAfter (allKeys : List String) (marker : Option String) : List String :=
  match marker with
  | none => allKeys
  | some m => allKeys.filter fun k => keyLtS m k

/-- `s3.list_objects` over a lexicographically sorted listing, with a page
size: one page of keys after the marker and the truncation flag.  A page
with zero matching keys carries no `Contents` entry at all. -/
def listObjects (allKeys : List String) (pageSize : Nat) (marker : Option String) :
    ListResponse :=
  ⟨if (keysAfter allKeys marker).take pageSize = [] then none
    else some ((keysAfter allKeys marker).take pageSize),
    decide (pageSize < (keysAfter allKeys marker).length)⟩

/-- The cursor file `last_key.txt`: `none` models the file being absent. -/
structure ScanFS where
  last_key : Option String
deriving DecidableEq

/-- Outcome of one `get_images` call: a batch (cursor written), the
`return None` of lines 83-84 or 87-89, or an uncaught `KeyError` escaping
the function (line 58 on a page without `Contents`; the `except` at line 87
catches only `NoCredentialsError`). -/
inductive ScanResult where
  | batch (keys : List String) : ScanResult
  | noBatch : ScanResult
  | keyErr : ScanResult
deriving DecidableEq

/-- The `while response:` loop of `get_images` (lines 57-84), fuel-indexed
(`none` = fuel ran out; every use supplies enough fuel).
`response['Contents']` on a page without the entry raises `KeyError`
(`.keyErr`), which happens exactly when the requested listing matches zero
keys — so the `return None` branch of lines 83-84 (empty accumulator) is
unreachable against the real collaborator, and is kept here only for
fidelity to the text of the source.  On reaching the batch size, or on
exhausting pagination with a nonempty accumulator, the last accumulated key
is written to `last_key.txt` before returning. -/
def giLoop (allKeys : List String) (pageSize batchSize : Nat) :
    Option ListResponse → Nat → List String → ScanFS →
    Option (ScanResult × ScanFS)
  | none, _, fileKeys, fs =>
    if fileKeys.isEmpty then some (.noBatch, fs)
    else some (.batch fileKeys, ⟨some (fileKeys.getLastD "")⟩)
  | some _, 0, _, _ => none
  | some resp, fuel + 1, fileKeys, fs =>
    match resp.contents with
    | none => some (.keyErr, fs)
    | some page =>
      let fk := fileKeys ++ page
      if batchSize ≤ fk.length then some (.batch fk, ⟨some (fk.getLastD "")⟩)
      else if resp.isTruncated then
        giLoop allKeys pageSize batchSize
          (some (listObjects allKeys pageSize (some (fk.getLastD "")))) fuel fk fs
      else giLoop allKeys pageSize batchSize none fuel fk fs

/-- `get_images` (lines 40-89): read the cursor from `last_key.txt`
(missing file → start of bucket), list from there, and run the batching
loop.  A `NoCredentialsError` from the listing is caught: it logs
"Credentials not available" and returns `None` — indistinguishable from an
exhausted scan to the caller.  A `KeyError` from a zero-key page is NOT
caught and escapes the function. -/
def get_images (allKeys : List String) (pageSize : Nat) (credsOk : Bool)
    (fs : ScanFS) (batchSize : Nat) : Option (ScanResult × ScanFS) :=
  if credsOk then
    giLoop allKeys pageSize batchSize
      (some (listObjects allKeys pageSize fs.last_key)) (allKeys.length + 2) [] fs
  else some (.noBatch, fs)

/-! ## `main` (source lines 174-215) -/

structure MainOut where
  fs : ScanFS
  store : Store
  /-- the batches handed to the synthesizer loop, in order. -/
  batches : List (List String)
  uploads : List String
  /-- "FINISHED!" was logged. -/
  finished : Bool
  /-- the final `os.remove("last_key.txt")` raised `FileNotFoundError`
  (the file did not exist). -/
  raised : Bool
  /-- an uncaught `KeyError` from a zero-key listing page escaped
  `get_images` and aborted the run before the completion path. -/
  crashed : Bool
deriving DecidableEq

/-- Lines 214-215: log FINISHED, then `os.remove("last_key.txt")` — which
raises `FileNotFoundError` when the cursor file does not exist. -/
def finishRun (fs : ScanFS) (store : Store) (batches : List (List String))
    (uploads : List String) : MainOut :=
  match fs.last_key with
  | some _ => ⟨⟨none⟩, store, batches, uploads, true, false, false⟩
  | none => ⟨fs, store, batches, uploads, true, true, false⟩

/-- The `while images:` loop of `main` (lines 178-212), fuel-indexed.  The
bucket listing `allKeys` is the key inventory the scan walks (uploads made
during the run land after the cursor in a real bucket; none of the settled
properties depend on them re-appearing in the listing).  An uncaught
`KeyError` from `get_images` aborts the run: no FINISHED!, no cursor
removal, the cursor file left as it was. -/
def mainLoop (allKeys : List String) (pageSize : Nat) (credsOk : Bool)
    (faults : Faults) (batchSize : Nat) :
    Nat → Store → ScanFS → List (List String) → List String → Option MainOut
  | 0, _, _, _, _ => none
  | fuel + 1, store, fs, batches, ups =>
    match get_images allKeys pageSize credsOk fs batchSize with
    | none => none
    | some (.noBatch, fs') => some (finishRun fs' store batches ups)
    | some (.keyErr, fs') => some ⟨fs', store, batches, ups, false, false, true⟩
    | some (.batch keys, fs') =>
      let r := process_batch store faults keys
      mainLoop allKeys pageSize credsOk faults batchSize fuel r.1 fs'
        (batches ++ [keys]) (ups ++ r.2)

/-- `main`: run the scan/synthesize loop from a given cursor-file state. -/
def main (allKeys : List String) (pageSize : Nat) (credsOk : Bool)
    (faults : Faults) (store : Store) (fs : ScanFS) : Option MainOut :=
  mainLoop allKeys pageSize credsOk faults 5000 (allKeys.length + 2) store fs [] []

/-! ## Helper lemmas -/

theorem matchAt_append_self (p t : List Char) : matchAt p (p ++ t) = true := by
  induction p with
  | nil => rfl
  | cons c cs ih => simp [matchAt, ih]

theorem matchAt_iff (p l : List Char) : matchAt p l = true ↔ p <+: l := by
  induction p generalizing l with
  | nil => simp [matchAt]
  | cons c cs ih =>
    cases l with
    | nil => simp [matchAt]
    | cons d ds =>
      by_cases h : c = d
      · subst h
        simp [matchAt, ih, List.cons_prefix_cons]
      · simp [matchAt, h, List.cons_prefix_cons]

theorem hasSub_iff (p l : List Char) : hasSub p l = true ↔ p <:+: l := by
  induction l with
  | nil =>
    cases p with
    | nil => simp [hasSub, matchAt]
    | cons c cs => simp [hasSub, matchAt]
  | cons c cs ih =>
    simp [hasSub, matchAt_iff, ih, List.infix_cons_iff]

theorem rsplit1_of_not_mem {sep : Char} {l : List Char} (h : sep ∉ l) :
    rsplit1 sep l = none := by
  induction l with
  | nil => rfl
  | cons c cs ih =>
    simp only [List.mem_cons, not_or] at h
    simp [rsplit1, ih h.2, Ne.symm h.1, h.1]

theorem rsplit1_append {sep : Char} (a : List Char) {b : List Char} (h : sep ∉ b) :
    rsplit1 sep (a ++ sep :: b) = some (a, b) := by
  induction a with
  | nil => simp [rsplit1, rsplit1_of_not_mem h]
  | cons c cs ih => simp [rsplit1, ih]

theorem splitOnChar_ne_nil (sep : Char) (l : List Char) : splitOnChar sep l ≠ [] := by
  cases l with
  | nil => simp [splitOnChar]
  | cons c cs =>
    simp only [splitOnChar]
    rcases hs : splitOnChar sep cs with _ | ⟨p, ps⟩
    · simp
    · by_cases h : c = sep <;> simp [h]

theorem splitOnChar_of_not_mem {sep : Char} {l : List Char} (h : sep ∉ l) :
    splitOnChar sep l = [l] := by
  induction l with
  | nil => rfl
  | cons c cs ih =>
    simp only [List.mem_cons, not_or] at h
    simp [splitOnChar, ih h.2, Ne.symm h.1, h.1]

theorem splitOnChar_append {sep : Char} {a : List Char} (b : List Char) (h : sep ∉ a) :
    splitOnChar sep (a ++ sep :: b) = a :: splitOnChar sep b := by
  induction a with
  | nil =>
    rcases hs : splitOnChar sep b with _ | ⟨p, ps⟩
    · exact absurd hs (splitOnChar_ne_nil sep b)
    · simp [splitOnChar, hs]
  | cons c cs ih =>
    simp only [List.mem_cons, not_or] at h
    simp [splitOnChar, ih h.2, Ne.symm h.1, h.1]

theorem endsWithL_append (a s : List Char) : endsWithL (a ++ s) s = true := by
  simp [endsWithL, List.reverse_append, matchAt_append_self]


theorem stripSizeExtL_jpg (x : List Char) :
    stripSizeExtL (x ++ ['.', 'j', 'p', 'g']) = x := by
  have h1 := endsWithL_append x ['.', 'j', 'p', 'g']
  simp [stripSizeExtL, h1, List.take_left']

theorem stripSizeExtL_jpeg (x : List Char) :
    stripSizeExtL (x ++ ['.', 'j', 'p', 'e', 'g']) = x := by
  have h0 : endsWithL (x ++ ['.', 'j', 'p', 'e', 'g']) ['.', 'j', 'p', 'g'] = false := by
    unfold endsWithL
    rw [List.reverse_append]
    rfl
  have h1 := endsWithL_append x ['.', 'j', 'p', 'e', 'g']
  simp [stripSizeExtL, h0, h1, List.take_left']

theorem stripSizeExtL_JPG (x : List Char) :
    stripSizeExtL (x ++ ['.', 'J', 'P', 'G']) = x := by
  have h0 : endsWithL (x ++ ['.', 'J', 'P', 'G']) ['.', 'j', 'p', 'g'] = false := by
    unfold endsWithL; rw [List.reverse_append]; rfl
  have h0' : endsWithL (x ++ ['.', 'J', 'P', 'G']) ['.', 'j', 'p', 'e', 'g'] = false := by
    unfold endsWithL; rw [List.reverse_append]; rfl
  have h1 := endsWithL_append x ['.', 'J', 'P', 'G']
  simp [stripSizeExtL, h0, h0', h1, List.take_left']

theorem stripSizeExtL_JPEG (x : List Char) :
    stripSizeExtL (x ++ ['.', 'J', 'P', 'E', 'G']) = x := by
  have h0 : endsWithL (x ++ ['.', 'J', 'P', 'E', 'G']) ['.', 'j', 'p', 'g'] = false := by
    unfold endsWithL; rw [List.reverse_append]; rfl
  have h0' : endsWithL (x ++ ['.', 'J', 'P', 'E', 'G']) ['.', 'j', 'p', 'e', 'g'] = false := by
    unfold endsWithL; rw [List.reverse_append]; rfl
  have h0'' : endsWithL (x ++ ['.', 'J', 'P', 'E', 'G']) ['.', 'J', 'P', 'G'] = false := by
    unfold endsWithL; rw [List.reverse_append]; rfl
  have h1 := endsWithL_append x ['.', 'J', 'P', 'E', 'G']
  simp [stripSizeExtL, h0, h0', h0'', h1, List.take_left']

theorem isDigit_ne {c : Char} (h : c.isDigit = true) : c ≠ '-' ∧ c ≠ 'x' := by
  refine ⟨fun hc => ?_, fun hc => ?_⟩ <;> (subst hc; exact absurd h (by decide))

theorem ratio_half_lt_iff {w h : Nat} (hh : 0 < h) :
    ((1 : ℚ)/2 < aspect_ratio w h) ↔ h < 2 * w := by
  have hq : (0 : ℚ) < (h : ℚ) := by exact_mod_cast hh
  unfold aspect_ratio
  rw [lt_div_iff₀ hq]
  constructor
  · intro hx
    have hx' : (h : ℚ) < 2 * (w : ℚ) := by linarith
    exact_mod_cast hx'
  · intro hx
    have hx' : (h : ℚ) < 2 * (w : ℚ) := by exact_mod_cast hx
    linarith

theorem ratio_lt_two_iff {w h : Nat} (hh : 0 < h) :
    (aspect_ratio w h < 2) ↔ w < 2 * h := by
  have hq : (0 : ℚ) < (h : ℚ) := by exact_mod_cast hh
  unfold aspect_ratio
  rw [div_lt_iff₀ hq]
  constructor
  · intro hx
    exact_mod_cast hx
  · intro hx
    exact_mod_cast hx

theorem ratio_le_two_iff {w h : Nat} (hh : 0 < h) :
    (aspect_ratio w h ≤ 2) ↔ w ≤ 2 * h := by
  have hq : (0 : ℚ) < (h : ℚ) := by exact_mod_cast hh
  unfold aspect_ratio
  rw [div_le_iff₀ hq]
  constructor
  · intro hx
    exact_mod_cast hx
  · intro hx
    exact_mod_cast hx

/-- The executable gate agrees with the source's rational formulation
`max(width, height) >= 600 and w/h > 0.5 and w/h < 2` on every decoded
image (positive height). -/
theorem eligibility_gate_ratio (w h : Nat) (hh : 0 < h) :
    eligibility_gate w h = true
      ↔ (600 ≤ max w h ∧ (1 : ℚ)/2 < aspect_ratio w h ∧ aspect_ratio w h < 2) := by
  simp only [eligibility_gate, Bool.and_eq_true, decide_eq_true_eq, and_assoc,
    ratio_half_lt_iff hh, ratio_lt_two_iff hh]

/-- The executable guard agrees with the source's rational formulation of
line 148 on every decoded existing image (positive height). -/
theorem existing_guard_ratio (ew eh w h : Nat) (heh : 0 < eh) :
    existing_guard ew eh w h = true
      ↔ (w * h < ew * eh
          ∨ ((2560 ≤ ew ∨ 2560 ≤ eh)
              ∧ ((1 : ℚ)/2 < aspect_ratio ew eh ∨ aspect_ratio ew eh ≤ 2))) := by
  simp only [existing_guard, Bool.or_eq_true, Bool.and_eq_true, decide_eq_true_eq,
    ratio_half_lt_iff heh, ratio_le_two_iff heh]

/-- The aspect-ratio conjunct on source line 148 is an `or` that every
ratio satisfies, so the sufficiency test collapses to an area comparison
or a 2560-px edge check. -/
theorem existing_guard_iff (ew eh w h : Nat) :
    existing_guard ew eh w h = true ↔ (w * h < ew * eh ∨ 2560 ≤ ew ∨ 2560 ≤ eh) := by
  have htot : (decide (eh < 2 * ew) || decide (ew ≤ 2 * eh)) = true := by
    by_cases hx : eh < 2 * ew
    · simp [hx]
    · have hy : ew ≤ 2 * eh := by omega
      simp [hy]
  simp only [existing_guard, htot, Bool.and_true, Bool.or_eq_true,
    decide_eq_true_eq, or_assoc]

theorem eligibility_gate_pos {w h : Nat} (hg : eligibility_gate w h = true) :
    0 < w ∧ 0 < h := by
  simp only [eligibility_gate, Bool.and_eq_true, decide_eq_true_eq] at hg
  omega


/-! ## Claim theorems: parsing, filtering, gate, head checks -/

theorem parseNat?_digits {l : List Char} (h0 : l ≠ []) (hd : l.all Char.isDigit = true) :
    parseNat? l = some (digitsVal l) := by
  simp [parseNat?, hd, h0]

theorem not_mem_of_all_digit {c : Char} {l : List Char}
    (hd : l.all Char.isDigit = true) (hc : Char.isDigit c = false) : c ∉ l := by
  intro hm
  have h2 := (List.all_eq_true.mp hd) c hm
  rw [hc] at h2
  exact Bool.false_ne_true h2

/-- C10: `object_exists` reports `False` exactly on a `ClientError` with
code `'404'`; any other head failure (e.g. a 403 access denial) falls
through to the trailing `return True`, i.e. is reported as existing. -/
theorem C10_object_exists_false_iff_404 (r : HeadResult) :
    object_exists r = false ↔ r = HeadResult.clientError "404" := by
  cases r with
  | ok => simp [object_exists]
  | clientError code =>
    by_cases h : code = "404" <;> simp [object_exists, h]

/-- C9: the eligibility gate accepts a decoded image exactly when its
longer edge is ≥ 600 px and its aspect ratio width/height lies strictly
between 0.5 and 2.0; in particular a 300x600 image — longer edge exactly
600, ratio exactly 0.5 — is rejected. -/
theorem C9_eligibility_gate_characterization :
    (∀ w h : Nat, 0 < h →
        (eligibility_gate w h = true
          ↔ (600 ≤ max w h
              ∧ (1 : ℚ)/2 < aspect_ratio w h ∧ aspect_ratio w h < 2)))
      ∧ eligibility_gate 300 600 = false := by
  exact ⟨fun w h hh => eligibility_gate_ratio w h hh, by decide⟩

theorem C9_eligibility_gate_characterization_witness :
    0 < 400
      ∧ (eligibility_gate 601 400 = true
          ↔ (600 ≤ max 601 400
              ∧ (1 : ℚ)/2 < aspect_ratio 601 400 ∧ aspect_ratio 601 400 < 2)) :=
  ⟨by decide, C9_eligibility_gate_characterization.1 601 400 (by decide)⟩

/-- C5 counterexample: `photo.jpg.txt` has extension `.txt`, not
`.jpg`/`.jpeg`, yet the first step retains it: line 184 tests substring
membership of `.jpg`/`.jpeg` in the lowercased key, not the extension. -/
theorem C5_counterexample :
    imageFilter ["photo.jpg.txt"] = ["photo.jpg.txt"]
      ∧ splitext_ext "photo.jpg.txt" = ".txt" := by
  exact ⟨by decide, by decide⟩

/-- C5 amended: the Synthesizer's first step retains exactly those keys
whose lowercased form contains `.jpg` or `.jpeg` as a substring — anywhere
in the key, not only as its extension. -/
theorem C5_amended_filter_characterization (keys : List String) (k : String) :
    k ∈ imageFilter keys
      ↔ (k ∈ keys
          ∧ (".jpg".data <:+: (strLower k).data
              ∨ ".jpeg".data <:+: (strLower k).data)) := by
  simp [imageFilter, imageKeyFilter, List.mem_filter, Bool.or_eq_true, hasSub_iff]

/-- C6 counterexample: the extension `.Jpg` is case-insensitively `jpg`,
but `get_image_area` returns 0 rather than 300*200 = 60000: the regex of
line 94 strips only the exact spellings `jpg`, `jpeg`, `JPG`, `JPEG`. -/
theorem C6_counterexample :
    get_image_area "cat-300x200.Jpg" = 0
      ∧ get_image_area "cat-300x200.jpg" = 300 * 200 := by
  exact ⟨by decide, by decide⟩

/-- C6 amended: for keys `base-WxH.ext` with `W`, `H` decimal numerals,
`get_basename` strips exactly the last `-WxH.ext` segment back to `base`
whenever the extension contains no dash, and `get_image_area` returns `W*H`
when the extension is one of the four exact spellings
`jpg`/`jpeg`/`JPG`/`JPEG` recognized by the code's regex.  The extension
handling is not case-insensitive: `.Jpg` is not stripped and its size parse
yields 0 (the counterexample above); no stronger "only these suffixes"
statement is made — e.g. an extension-less `base-WxH` also parses to
`W*H`. -/
theorem C6_amended_parse (base wS hS ext : List Char)
    (hw0 : wS ≠ []) (hw : wS.all Char.isDigit = true)
    (hh0 : hS ≠ []) (hhd : hS.all Char.isDigit = true) :
    (('-' : Char) ∉ ext
        → get_basename_l (base ++ '-' :: (wS ++ 'x' :: (hS ++ ext))) = base)
      ∧ (ext ∈ [['.', 'j', 'p', 'g'], ['.', 'j', 'p', 'e', 'g'],
                ['.', 'J', 'P', 'G'], ['.', 'J', 'P', 'E', 'G']]
          → get_image_area_l (base ++ '-' :: (wS ++ 'x' :: (hS ++ ext)))
              = digitsVal wS * digitsVal hS) := by
  have hwd : ('-' : Char) ∉ wS := not_mem_of_all_digit hw (by decide)
  have hhd2 : ('-' : Char) ∉ hS := not_mem_of_all_digit hhd (by decide)
  have hnod : ('-' : Char) ∉ ext → ('-' : Char) ∉ wS ++ 'x' :: (hS ++ ext) := by
    intro hext2 hm
    rcases List.mem_append.mp hm with hm | hm
    · exact hwd hm
    · rcases List.mem_cons.mp hm with hm | hm
      · exact absurd hm (by decide)
      · rcases List.mem_append.mp hm with hm | hm
        · exact hhd2 hm
        · exact hext2 hm
  constructor
  · intro hext2
    have hbase : rsplit1 '-' (base ++ '-' :: (wS ++ 'x' :: (hS ++ ext)))
        = some (base, wS ++ 'x' :: (hS ++ ext)) := rsplit1_append base (hnod hext2)
    simp [get_basename_l, hbase]
  · intro hext
    have hext2 : ('-' : Char) ∉ ext := by
      fin_cases hext <;> decide
    have hbase : rsplit1 '-' (base ++ '-' :: (wS ++ 'x' :: (hS ++ ext)))
        = some (base, wS ++ 'x' :: (hS ++ ext)) := rsplit1_append base (hnod hext2)
    have hxw : ('x' : Char) ∉ wS := not_mem_of_all_digit hw (by decide)
    have hxh : ('x' : Char) ∉ hS := not_mem_of_all_digit hhd (by decide)
    have hassoc : wS ++ 'x' :: (hS ++ ext) = (wS ++ 'x' :: hS) ++ ext := by
      simp [List.append_assoc]
    have hstrip : stripSizeExtL (wS ++ 'x' :: (hS ++ ext)) = wS ++ 'x' :: hS := by
      rw [hassoc]
      fin_cases hext
      · exact stripSizeExtL_jpg _
      · exact stripSizeExtL_jpeg _
      · exact stripSizeExtL_JPG _
      · exact stripSizeExtL_JPEG _
    have hsplit : splitOnChar 'x' (wS ++ 'x' :: hS) = [wS, hS] := by
      rw [splitOnChar_append hS hxw, splitOnChar_of_not_mem hxh]
    simp [get_image_area_l, hbase, hstrip, hsplit,
      parseNat?_digits hw0 hw, parseNat?_digits hh0 hhd]

theorem C6_amended_parse_witness :
    get_basename_l ("cat".data ++ '-' :: ("300".data ++ 'x' :: ("200".data ++ ['.', 'j', 'p', 'g']))) = "cat".data
      ∧ get_image_area_l ("cat".data ++ '-' :: ("300".data ++ 'x' :: ("200".data ++ ['.', 'j', 'p', 'g'])))
          = digitsVal "300".data * digitsVal "200".data :=
  ⟨(C6_amended_parse "cat".data "300".data "200".data ['.', 'j', 'p', 'g']
      (by decide) (by decide) (by decide) (by decide)).1 (by decide),
   (C6_amended_parse "cat".data "300".data "200".data ['.', 'j', 'p', 'g']
      (by decide) (by decide) (by decide) (by decide)).2 (by decide)⟩


/-! ## Claim theorems: the synthesis routine -/

/-- C1 counterexample: the candidate decodes at 2000x2000 (it passes the
gate), the existing `img.jpg` is 2560x1000 — its longer edge is ≥ 2560 but
its aspect ratio 2.56 lies outside the (0.5, 2] band, and its area is
smaller than the candidate's.  Per the claim the existing base is NOT
sufficient, so synthesis should overwrite; the code aborts with no upload,
because the aspect clause on line 148 is an always-true `or`. -/
theorem C1_counterexample :
    (upscale_image [("img-2000x2000.jpg", ImgObj.img 2000 2000),
        ("img.jpg", ImgObj.img 2560 1000)] faults0
        "img-2000x2000.jpg" "img.jpg" 2).uploadedKeys = []
      ∧ ¬ sufficientPerSpec 2560 1000 2000 2000 := by
  constructor
  · decide
  · unfold sufficientPerSpec
    push_neg
    refine ⟨by norm_num, fun _ h25 => ?_⟩
    unfold aspect_ratio
    norm_num

/-- C1 amended: for a synthesis whose source decodes and passes the gate
and whose destination already exists and decodes, the existing base is
treated as sufficient (no upload) iff its area exceeds the candidate's
pre-upscale area OR one of its edges is ≥ 2560 px — the aspect-band clause
of line 148 is an always-true disjunction and never constrains the
decision. -/
theorem C1_amended_sufficiency (store : Store) (src dst : String) (w h ew eh : Nat)
    (hsrc : storeLookup store src = some (ImgObj.img w h))
    (hdst : storeLookup store dst = some (ImgObj.img ew eh))
    (hgate : eligibility_gate w h = true)
    (hdir : dirname dst ≠ "") :
    ((upscale_image store faults0 src dst 2).uploadedKeys = []
      ↔ (w * h < ew * eh ∨ 2560 ≤ ew ∨ 2560 ≤ eh)) := by
  have hobj1 : object_exists (headOf store src) = true := by
    simp [headOf, hsrc, object_exists]
  have hobj2 : object_exists (headOf store dst) = true := by
    simp [headOf, hdst, object_exists]
  have hdec1 : decodeOf store src = some (w, h) := by simp [decodeOf, hsrc]
  have hdec2 : decodeOf store dst = some (ew, eh) := by simp [decodeOf, hdst]
  cases hgd : existing_guard ew eh w h with
  | true =>
    have hup : (upscale_image store faults0 src dst 2).uploadedKeys = [] := by
      simp [upscale_image, upscale_try, hobj1, hobj2, hdec1, hdec2, hgate, hgd, faults0]
    simp [hup, (existing_guard_iff ew eh w h).mp hgd]
  | false =>
    have hup : (upscale_image store faults0 src dst 2).uploadedKeys = [dst] := by
      simp [upscale_image, upscale_try, upscale_publish, hobj1, hobj2, hdec1, hdec2,
        hgate, hgd, hdir, faults0]
    rw [hup]
    constructor
    · intro hc
      exact absurd hc (by simp)
    · intro hr
      exact absurd ((existing_guard_iff ew eh w h).mpr hr) (by simp [hgd])

theorem C1_amended_sufficiency_witness :
    storeLookup [("d/s-700x700.jpg", ImgObj.img 700 700),
        ("d/s.jpg", ImgObj.img 2560 100)] "d/s-700x700.jpg"
        = some (ImgObj.img 700 700)
      ∧ storeLookup [("d/s-700x700.jpg", ImgObj.img 700 700),
          ("d/s.jpg", ImgObj.img 2560 100)] "d/s.jpg" = some (ImgObj.img 2560 100)
      ∧ eligibility_gate 700 700 = true
      ∧ dirname "d/s.jpg" ≠ ""
      ∧ ((upscale_image [("d/s-700x700.jpg", ImgObj.img 700 700),
            ("d/s.jpg", ImgObj.img 2560 100)] faults0
            "d/s-700x700.jpg" "d/s.jpg" 2).uploadedKeys = []
          ↔ (700 * 700 < 2560 * 100 ∨ 2560 ≤ 2560 ∨ 2560 ≤ 100)) :=
  ⟨by decide, by decide, by decide, by decide,
    C1_amended_sufficiency
      [("d/s-700x700.jpg", ImgObj.img 700 700), ("d/s.jpg", ImgObj.img 2560 100)]
      "d/s-700x700.jpg" "d/s.jpg" 700 700 2560 100
      (by decide) (by decide) (by decide) (by decide)⟩

/-- C7: re-running the Synthesizer on an unchanged family whose base image
was already published at the 2x-upscaled dimensions of the family's selected
candidate performs no store write at all: either the gate skips again, or
the existing-base sufficiency check does (the published base has 4x the
candidate's area). -/
theorem C7_idempotent_family (store : Store) (base L : String)
    (variants : List String) (w h : Nat)
    (hmax : maxByArea (variants.filter fun x => get_basename x == base) = some L)
    (hsrc : storeLookup store L = some (ImgObj.img w h))
    (hdst : storeLookup store (base ++ splitext_ext L)
        = some (ImgObj.img (2 * w) (2 * h))) :
    process_family store faults0 base variants = (store, []) := by
  unfold process_family
  rw [hmax]
  by_cases hin : (base ++ splitext_ext L) ∈ variants
  · simp [hin]
  · by_cases ha : get_image_area L = 0
    · simp [hin, ha]
    · have hobj1 : object_exists (headOf store L) = true := by
        simp [headOf, hsrc, object_exists]
      have hdec1 : decodeOf store L = some (w, h) := by simp [decodeOf, hsrc]
      have hobj2 : object_exists (headOf store (base ++ splitext_ext L)) = true := by
        simp [headOf, hdst, object_exists]
      have hdec2 : decodeOf store (base ++ splitext_ext L) = some (2 * w, 2 * h) := by
        simp [decodeOf, hdst]
      cases hg : eligibility_gate w h with
      | false =>
        simp [hin, ha, upscale_image, upscale_try, hobj1, hdec1, hg, faults0]
      | true =>
        have hpos := eligibility_gate_pos hg
        have hwh : 0 < w * h := Nat.mul_pos hpos.1 hpos.2
        have hgd : existing_guard (2 * w) (2 * h) w h = true := by
          apply (existing_guard_iff _ _ _ _).mpr
          left
          calc w * h < 4 * (w * h) := by omega
            _ = 2 * w * (2 * h) := by ring
        simp [hin, ha, upscale_image, upscale_try, hobj1, hdec1, hobj2, hdec2,
          hg, hgd, faults0]

theorem C7_idempotent_family_witness :
    maxByArea (["d/cat-800x600.jpg"].filter fun x => get_basename x == "d/cat")
        = some "d/cat-800x600.jpg"
      ∧ storeLookup [("d/cat-800x600.jpg", ImgObj.img 800 600),
          ("d/cat.jpg", ImgObj.img 1600 1200)] "d/cat-800x600.jpg"
          = some (ImgObj.img 800 600)
      ∧ storeLookup [("d/cat-800x600.jpg", ImgObj.img 800 600),
          ("d/cat.jpg", ImgObj.img 1600 1200)]
          ("d/cat" ++ splitext_ext "d/cat-800x600.jpg")
          = some (ImgObj.img (2 * 800) (2 * 600))
      ∧ process_family [("d/cat-800x600.jpg", ImgObj.img 800 600),
          ("d/cat.jpg", ImgObj.img 1600 1200)] faults0 "d/cat"
          ["d/cat-800x600.jpg"]
          = ([("d/cat-800x600.jpg", ImgObj.img 800 600),
              ("d/cat.jpg", ImgObj.img 1600 1200)], []) :=
  ⟨by decide, by decide, by decide,
    C7_idempotent_family
      [("d/cat-800x600.jpg", ImgObj.img 800 600), ("d/cat.jpg", ImgObj.img 1600 1200)]
      "d/cat" "d/cat-800x600.jpg" ["d/cat-800x600.jpg"] 800 600
      (by decide) (by decide) (by decide)⟩


/-- C8 counterexample, refuting both halves of the claim.  First, a failed
upload: the source `d/a-800x600.jpg` decodes at 800x600 and passes the
gate, no base exists, the upscaled image is saved locally at `d/a.jpg`, and
`upload_file` raises — the `ClientError` skips line 160's
`os.remove(base_image_name)`, so the local upscaled file survives the call
(only the downloaded source is removed by the `finally`), and the exception
escapes.  Second, a deletion failure that escalates: when the `finally`'s
unguarded `os.remove(file_name)` of the downloaded source fails (`p ==`
the source's temp path), the failure raises out of the routine instead of
being logged. -/
theorem C8_counterexample :
    ((upscale_image [("d/a-800x600.jpg", ImgObj.img 800 600)]
          ⟨true, fun _ => false⟩ "d/a-800x600.jpg" "d/a.jpg" 2).localFiles
        = ["d/a.jpg"])
      ∧ (upscale_image [("d/a-800x600.jpg", ImgObj.img 800 600)]
          ⟨true, fun _ => false⟩ "d/a-800x600.jpg" "d/a.jpg" 2).raised = true
      ∧ (upscale_image [("d/a-800x600.jpg", ImgObj.img 800 600)]
          ⟨false, fun p => p == "./tmp/a-800x600.jpg"⟩
          "d/a-800x600.jpg" "d/a.jpg" 2).raised = true := by
  exact ⟨by decide, by decide, by decide⟩

theorem upscale_publish_localFiles (store : Store) (dst : String) (nw nh : Nat)
    (uf : Bool) :
    (upscale_publish store ⟨uf, fun _ => false⟩ dst nw nh []).localFiles = []
      ∨ (uf = true
          ∧ (upscale_publish store ⟨uf, fun _ => false⟩ dst nw nh []).localFiles = [dst]) := by
  unfold upscale_publish
  by_cases hd : dirname dst = ""
  · simp [hd]
  · cases uf with
    | true => simp [hd]
    | false => simp [hd]

theorem upscale_try_localFiles (store : Store) (src dst : String) (factor : Nat)
    (uf : Bool) :
    (upscale_try store ⟨uf, fun _ => false⟩ src dst factor).localFiles = []
      ∨ (upscale_try store ⟨uf, fun _ => false⟩ src dst factor).localFiles = [tempName]
      ∨ (uf = true
          ∧ (upscale_try store ⟨uf, fun _ => false⟩ src dst factor).localFiles = [dst]) := by
  unfold upscale_try
  rcases hds : decodeOf store src with _ | ⟨w, h⟩
  · simp
  · cases hg : eligibility_gate w h with
    | false => simp [hg]
    | true =>
      cases ho : object_exists (headOf store dst) with
      | false =>
        simp only [hg, ho, if_true, if_false, Bool.false_eq_true]
        rcases upscale_publish_localFiles store dst (w * factor) (h * factor) uf with hp | hp
        · exact Or.inl hp
        · exact Or.inr (Or.inr hp)
      | true =>
        rcases hdd : decodeOf store dst with _ | ⟨ew, eh⟩
        · simp [hg, ho, hdd]
        · cases hgd : existing_guard ew eh w h with
          | true => simp [hg, ho, hdd, hgd]
          | false =>
            simp only [hg, ho, hdd, hgd, if_true, if_false, Bool.false_eq_true]
            rcases upscale_publish_localFiles store dst (w * factor) (h * factor) uf with hp | hp
            · exact Or.inl hp
            · exact Or.inr (Or.inr hp)

/-- With only the existing-base temp file's removal failing, no exception
other than a (caught) `UnidentifiedImageError` arises inside the `try`
body: lines 143-146 guard exactly that removal with `try/except`. -/
theorem upscale_try_exc (store : Store) (src dst : String) (factor : Nat)
    (h2 : dst ≠ tempName) (hdir : dirname dst ≠ "") :
    (upscale_try store ⟨false, fun p => p == tempName⟩ src dst factor).exc = none
      ∨ (upscale_try store ⟨false, fun p => p == tempName⟩ src dst factor).exc
          = some PyExc.unidentifiedImage := by
  unfold upscale_try upscale_publish
  rcases hds : decodeOf store src with _ | ⟨w, h⟩
  · simp
  · cases hg : eligibility_gate w h with
    | false => simp [hg]
    | true =>
      have hb : (dst == tempName) = false := by simp [h2]
      cases ho : object_exists (headOf store dst) with
      | false => simp [hg, ho, hdir, hb]
      | true =>
        rcases hdd : decodeOf store dst with _ | ⟨ew, eh⟩
        · simp [hg, ho, hdd]
        · cases hgd : existing_guard ew eh w h with
          | true => simp [hg, ho, hdd, hgd]
          | false => simp [hg, ho, hdd, hgd, hdir, hb]

/-- C8 amended, three parts.  (1) With no deletion faults, the `finally`
always removes the downloaded source, and with a successful upload the
local upscaled file never survives either — but on a failed upload the
upscaled file is left behind (shown at a concrete input above).
(2) A failure of the `finally`'s unguarded `os.remove` of the downloaded
source escalates out of the routine.  (3) A failure to remove the
existing-base temp file is logged and never escalates (given a destination
with a directory component, whose `os.makedirs` cannot raise).  The side
conditions keep the modelled uuid temp name distinct from the other
paths. -/
theorem C8_amended_cleanup (store : Store) (src dst : String) (factor : Nat)
    (uf : Bool)
    (h1 : dst ≠ "./tmp/" ++ lastComp src) (h2 : dst ≠ tempName)
    (h3 : "./tmp/" ++ lastComp src ≠ tempName) :
    (("./tmp/" ++ lastComp src)
        ∉ (upscale_image store ⟨uf, fun _ => false⟩ src dst factor).localFiles
      ∧ (uf = false
          → dst ∉ (upscale_image store ⟨uf, fun _ => false⟩ src dst factor).localFiles))
      ∧ ((storeLookup store src).isSome = true
          → (upscale_image store ⟨false, fun p => p == "./tmp/" ++ lastComp src⟩
              src dst factor).raised = true)
      ∧ (dirname dst ≠ ""
          → (upscale_image store ⟨false, fun p => p == tempName⟩
              src dst factor).raised = false) := by
  refine ⟨?_, ?_, ?_⟩
  · unfold upscale_image
    cases ho : object_exists (headOf store src) with
    | false => simp [ho]
    | true =>
      simp only [ho, if_true]
      rcases upscale_try_localFiles store src dst factor uf with hl | hl | ⟨huf, hl⟩
      · simp [hl]
      · simp only [hl]
        constructor
        · simp [h3]
        · intro _
          simp [h2]
      · simp only [hl]
        constructor
        · simp [Ne.symm h1]
        · intro hf
          rw [hf] at huf
          exact absurd huf (by simp)
  · intro hsome
    have ho : object_exists (headOf store src) = true := by
      rcases hs : storeLookup store src with _ | obj
      · rw [hs] at hsome
        simp at hsome
      · simp [headOf, hs, object_exists]
    simp [upscale_image, ho]
  · intro hdir
    have hb3 : (("./tmp/" ++ lastComp src) == tempName) = false := by simp [h3]
    cases ho : object_exists (headOf store src) with
    | false => simp [upscale_image, ho]
    | true =>
      rcases upscale_try_exc store src dst factor h2 hdir with he | he <;>
        simp [upscale_image, ho, hb3, he]

theorem C8_amended_cleanup_witness :
    ("d/a.jpg" ≠ "./tmp/" ++ lastComp "d/a-800x600.jpg")
      ∧ ("d/a.jpg" ≠ tempName)
      ∧ ("./tmp/" ++ lastComp "d/a-800x600.jpg" ≠ tempName)
      ∧ ((("./tmp/" ++ lastComp "d/a-800x600.jpg")
            ∉ (upscale_image [("d/a-800x600.jpg", ImgObj.img 800 600)]
                ⟨false, fun _ => false⟩ "d/a-800x600.jpg" "d/a.jpg" 2).localFiles
          ∧ (false = false
              → "d/a.jpg" ∉ (upscale_image [("d/a-800x600.jpg", ImgObj.img 800 600)]
                  ⟨false, fun _ => false⟩ "d/a-800x600.jpg" "d/a.jpg" 2).localFiles))
        ∧ ((storeLookup [("d/a-800x600.jpg", ImgObj.img 800 600)]
              "d/a-800x600.jpg").isSome = true
            → (upscale_image [("d/a-800x600.jpg", ImgObj.img 800 600)]
                ⟨false, fun p => p == "./tmp/" ++ lastComp "d/a-800x600.jpg"⟩
                "d/a-800x600.jpg" "d/a.jpg" 2).raised = true)
        ∧ (dirname "d/a.jpg" ≠ ""
            → (upscale_image [("d/a-800x600.jpg", ImgObj.img 800 600)]
                ⟨false, fun p => p == tempName⟩
                "d/a-800x600.jpg" "d/a.jpg" 2).raised = false)) :=
  ⟨by decide, by decide, by decide,
    C8_amended_cleanup [("d/a-800x600.jpg", ImgObj.img 800 600)]
      "d/a-800x600.jpg" "d/a.jpg" 2 false
      (by decide) (by decide) (by decide)⟩


/-! ## Claim theorems: the scan loop and run completion -/

/-- C3 counterexample: on the bucket {`cat-100x100.jpg`, `cat-300x200.jpg`,
`dog-50x50.jpg`} with no base images, the run uploads nothing — in
particular no `cat.jpg` appears: the selected cat candidate decodes at
300x200 and its longer edge 300 is below the 600-px gate, contradicting the
claim that `cat.jpg` is published at 600x400. -/
theorem C3_counterexample :
    (main ["cat-100x100.jpg", "cat-300x200.jpg", "dog-50x50.jpg"] 10 true faults0
        [("cat-100x100.jpg", ImgObj.img 100 100),
         ("cat-300x200.jpg", ImgObj.img 300 200),
         ("dog-50x50.jpg", ImgObj.img 50 50)] ⟨none⟩).map
        (fun o => (storeLookup o.store "cat.jpg", o.uploads))
      = some (none, []) := by
  decide

/-- C3 amended: in that scenario family `cat` selects `cat-300x200.jpg`
(area 60000) and family `dog` selects `dog-50x50.jpg` (area 2500, nonzero),
so both are attempted, but both are skipped at the eligibility gate (longer
edges 300 < 600 and 50 < 600): nothing is uploaded and the store is
unchanged.  The batch's cursor `dog-50x50.jpg` is persisted, and the
follow-up listing call — zero keys after the cursor, hence a page without
`Contents` — then crashes the run with an uncaught `KeyError`: no
FINISHED!, no cursor removal, the cursor file left in place. -/
theorem C3_amended_scenario :
    main ["cat-100x100.jpg", "cat-300x200.jpg", "dog-50x50.jpg"] 10 true faults0
        [("cat-100x100.jpg", ImgObj.img 100 100),
         ("cat-300x200.jpg", ImgObj.img 300 200),
         ("dog-50x50.jpg", ImgObj.img 50 50)] ⟨none⟩
      = some ⟨⟨some "dog-50x50.jpg"⟩,
          [("cat-100x100.jpg", ImgObj.img 100 100),
           ("cat-300x200.jpg", ImgObj.img 300 200),
           ("dog-50x50.jpg", ImgObj.img 50 50)],
          [["cat-100x100.jpg", "cat-300x200.jpg", "dog-50x50.jpg"]], [],
          false, false, true⟩
      ∧ maxByArea (["cat-100x100.jpg", "cat-300x200.jpg"].filter
          fun x => get_basename x == "cat") = some "cat-300x200.jpg"
      ∧ maxByArea (["dog-50x50.jpg"].filter fun x => get_basename x == "dog")
          = some "dog-50x50.jpg"
      ∧ get_image_area "dog-50x50.jpg" ≠ 0
      ∧ eligibility_gate 300 200 = false
      ∧ eligibility_gate 50 50 = false := by
  refine ⟨by decide, by decide, by decide, by decide, by decide, by decide⟩

/-- C4 counterexample: credentials fail on the very first listing.
`get_images` catches `NoCredentialsError` and returns `None`, so `main`
leaves its loop exactly as on normal exhaustion, logs FINISHED!, and
deletes the persisted cursor `last_key.txt` — downstream cursor deletion
DOES proceed after the credential failure, and the failure is never
re-raised. -/
theorem C4_counterexample :
    mainLoop ["a-800x600.jpg"] 10 false faults0 5000 2
        [("a-800x600.jpg", ImgObj.img 800 600)] ⟨some "k"⟩ [] []
      = some ⟨⟨none⟩, [("a-800x600.jpg", ImgObj.img 800 600)], [], [],
          true, false, false⟩ := by
  decide

/-- C4 amended: a credential failure is caught inside the scanner, which
logs and returns no batch; no batch is handed to the Synthesizer and no
upload happens, but the failure is not reported upward as terminal — the
run proceeds to the normal completion path, logging FINISHED! and running
`os.remove("last_key.txt")`: the persisted cursor is deleted when present
(and the remove raises `FileNotFoundError` when it is not). -/
theorem C4_amended_credentials (allKeys : List String)
    (pageSize batchSize fuel : Nat) (faults : Faults) (store : Store) (fs : ScanFS) :
    mainLoop allKeys pageSize false faults batchSize (fuel + 1) store fs [] []
        = some (finishRun fs store [] [])
      ∧ (finishRun fs store [] []).batches = []
      ∧ (finishRun fs store [] []).uploads = []
      ∧ (finishRun fs store [] []).finished = true
      ∧ (finishRun fs store [] []).fs.last_key = none
      ∧ (finishRun fs store [] []).raised = fs.last_key.isNone := by
  refine ⟨?_, ?_, ?_, ?_, ?_, ?_⟩ <;>
    cases hk : fs.last_key <;> simp [mainLoop, get_images, finishRun, hk]

/-- C2: the claim matches the code's evident intent — the dead
`return None` branch of lines 83-84 and the FINISHED!/`os.remove`
completion of lines 214-215 are written for graceful exhaustion — but that
path is unreachable: a listing call that yields zero keys returns a
response without a `Contents` entry, so line 58's `response['Contents']`
raises a `KeyError` that nothing catches (line 87 catches only
`NoCredentialsError`).  At both failing inputs below (a fresh scan of an
empty bucket, and a scan whose cursor lies past every key) the run aborts
mid-scan: `get_images` raises instead of returning `None`, FINISHED! is
never logged, and the cursor file is never cleared (it survives exactly as
it was). -/
theorem C2_keyerror_crash :
    main [] 10 true faults0 [] ⟨none⟩
        = some ⟨⟨none⟩, [], [], [], false, false, true⟩
      ∧ main ["a-800x600.jpg"] 10 true faults0
          [("a-800x600.jpg", ImgObj.img 800 600)] ⟨some "z"⟩
          = some ⟨⟨some "z"⟩, [("a-800x600.jpg", ImgObj.img 800 600)], [], [],
              false, false, true⟩
      ∧ get_images [] 10 true ⟨none⟩ 5000 = some (ScanResult.keyErr, ⟨none⟩) := by
  refine ⟨by decide, by decide, by decide⟩

end WPImageFixer
